import Mathlib

/-!
# Verification of the scholarship data evaluation engine (`app.py`)

A shallow embedding of the scoring core of the application:

* `parse_options`   — normalization of a raw answer cell into a set of tokens
                      (source: `parse_options`, app.py lines 7-23);
* `evaluate_answer` — per-question scoring (source: `evaluate_answer`, lines 26-36);
* `score`           — per-question scoring including the question-type
                      preprocessing performed by the engine at its call site
                      (`str(row.get("QUESTION_TYPE", "")).strip().upper() or "NORMAL"`,
                      line 81);
* `evalRow` / `evaluate` — the evaluation engine (source: `evaluate`, lines 55-95).

Modelling conventions:

* A pandas cell is a `Cell`: missing value (`NaN`), string, int, or float.
  Float cells carry their value as an exact rational; Python's binary floats
  are idealized as exact rationals, which agrees with Python on every decimal
  input within double precision (Python rounds at 17 significant digits and
  prints the shortest round-tripping decimal, which for such inputs is the
  exact decimal itself).  `Cell.na` stands for the float `nan` pandas uses for
  missing data.
* A pandas row (`Series`) is an ordered association list `Row`; `Row.set`
  mirrors `Series.__setitem__` (replace in place when the label exists,
  append otherwise); labels are unique in every frame the application builds.
* A `DataFrame` is its column list plus its rows; in every frame pandas
  builds, each row carries exactly the frame's columns.
* Python exceptions that `evaluate` can raise (`KeyError` on a key table
  missing the `QUESTION_NO`/`ANSWER_KEY`/`MARKS` columns, `TypeError` on
  adding a string marks value into the running total) are modelled by
  `Option`: `none` means the evaluation raises.
* Python `float(t)` is modelled by `parseTok?` on the grammar of signed
  decimal literals with optional exponent, plus the special tokens
  `nan`/`inf`/`infinity` (case-insensitive, optionally signed).  Not
  modelled: underscored digit groups (`"1_0"`) and the `OverflowError` that
  Python raises for finite literals exceeding the double range (`"1e400"`);
  no statement below depends on such tokens.
-/

/-- Python `str.strip()`: drop whitespace from both ends. -/
def pyStrip (s : String) : String :=
  String.mk (((s.data.dropWhile Char.isWhitespace).reverse.dropWhile Char.isWhitespace).reverse)

/-- Python `str.split(",")` at the character level: split at every comma,
keeping empty pieces. -/
def splitCommaCore : List Char → List (List Char)
  | [] => [[]]
  | c :: r =>
    let rest := splitCommaCore r
    if c = ',' then [] :: rest
    else
      match rest with
      | h :: t => (c :: h) :: t
      | [] => [[c]]

/-- Python `str.split(",")`. -/
def pySplitComma (s : String) : List String :=
  (splitCommaCore s.data).map String.mk

/-- Python `str.upper()` (ASCII; the question-type strings the application
compares against are ASCII). -/
def pyUpper (s : String) : String :=
  String.mk (s.data.map Char.toUpper)

/-- A normalized answer token.  Python represents every token as a string,
canonicalizing numeric-looking tokens through `float`; since the canonical
string of a numeric token is determined by (and determines) its value, and
never collides with a token that failed numeric parsing, tokens are
faithfully represented as a sum: a numeric value, the special floats, or a
verbatim string. -/
inductive Token where
  | num (q : ℚ)
  | nan
  | infty (neg : Bool)
  | str (s : String)
deriving DecidableEq, Repr

/-- Value of a list of decimal digit characters. -/
def digitsVal (ds : List Char) : ℕ :=
  ds.foldl (fun a c => a * 10 + (c.toNat - 48)) 0

/-- Python `float(t)` on an already-stripped token, returning the normalized
token on success (`None` models `ValueError`).  Grammar: optional sign, then
either `nan`/`inf`/`infinity` case-insensitively, or a decimal literal
`digits[.digits]` (at least one digit) with optional exponent `e[sign]digits`. -/
def parseTok? (t : String) : Option Token :=
  let cs := t.data
  let sgn : Bool × List Char :=
    match cs with
    | '-' :: r => (true, r)
    | '+' :: r => (false, r)
    | _ => (false, cs)
  let neg := sgn.1
  let cs1 := sgn.2
  let low := cs1.map Char.toLower
  if low = "nan".data then some Token.nan
  else if low = "inf".data ∨ low = "infinity".data then some (Token.infty neg)
  else
    let ip := cs1.takeWhile Char.isDigit
    let cs2 := cs1.dropWhile Char.isDigit
    let fpr : List Char × List Char :=
      match cs2 with
      | '.' :: r => (r.takeWhile Char.isDigit, r.dropWhile Char.isDigit)
      | _ => ([], cs2)
    let fp := fpr.1
    let cs3 := fpr.2
    if ip = [] ∧ fp = [] then none
    else
      let base : ℤ := (digitsVal ip * 10 ^ fp.length + digitsVal fp : ℕ)
      let num : ℤ := if neg then -base else base
      match cs3 with
      | [] => some (Token.num (mkRat num (10 ^ fp.length)))
      | e :: r1 =>
        if e = 'e' ∨ e = 'E' then
          let esgn : Bool × List Char :=
            match r1 with
            | '-' :: r => (true, r)
            | '+' :: r => (false, r)
            | _ => (false, r1)
          let eds := esgn.2.takeWhile Char.isDigit
          let r3 := esgn.2.dropWhile Char.isDigit
          if eds = [] ∨ r3 ≠ [] then none
          else
            let ev := digitsVal eds
            some (Token.num (if esgn.1 then mkRat num (10 ^ fp.length * 10 ^ ev)
                             else mkRat (num * 10 ^ ev) (10 ^ fp.length)))
        else none

/-- Largest `e` with `p ^ e ∣ n` (for `2 ≤ p`, `0 < n`; otherwise `0`). -/
def pval (p : ℕ) : ℕ → ℕ
  | n =>
    if h : 2 ≤ p ∧ 0 < n ∧ n % p = 0 then
      pval p (n / p) + 1
    else 0
  termination_by n => n
  decreasing_by exact Nat.div_lt_self h.2.1 h.1

/-- Exact decimal expansion of a rational whose denominator divides a power
of ten (every value a Python float cell can hold is of this form); renders
`num/den` otherwise (unreachable for float cells). -/
def decimalStr (q : ℚ) : String :=
  let k := max (pval 2 q.den) (pval 5 q.den)
  let m := q.num * (10 : ℤ) ^ k / (q.den : ℤ)
  if m * (q.den : ℤ) = q.num * (10 : ℤ) ^ k then
    let a := m.natAbs
    let ip := a / 10 ^ k
    let fp := a % 10 ^ k
    let fs := toString fp
    let fs := String.mk (List.replicate (k - fs.length) '0') ++ fs
    (if q.num < 0 then "-" else "") ++ toString ip ++ "." ++ fs
  else toString q.num ++ "/" ++ toString q.den

/-- Python `str` of a float: integral values print with a trailing `.0`,
others as their (shortest, here: exact) decimal expansion. -/
def floatRepr (q : ℚ) : String :=
  if q.den = 1 then toString q.num ++ ".0" else decimalStr q

/-- One cell of a pandas frame: missing (`NaN`), a string, an int, or a
float (idealized as an exact rational). -/
inductive Cell where
  | na
  | str (s : String)
  | int (n : ℤ)
  | float (q : ℚ)
deriving DecidableEq, Repr

/-- Python `str(cell)`: `str(nan) = "nan"`, strings unchanged, ints and
floats in their canonical decimal notation. -/
def Cell.toStr : Cell → String
  | .na => "nan"
  | .str s => s
  | .int n => toString n
  | .float q => floatRepr q

/-- Rational addition written out on numerator and denominator (kept
kernel-computable; `ratAdd_eq_add` below identifies it with `+` on `ℚ`). -/
def ratAdd (a b : ℚ) : ℚ := mkRat (a.num * b.den + b.num * a.den) (a.den * b.den)

/-- Python `+` on cell values as used for the running total (source line 87):
numbers add (int + int stays int, a float makes a float), `nan` propagates,
and adding a string raises `TypeError` (modelled by `none`). -/
def cellAdd : Cell → Cell → Option Cell
  | .int a, .int b => some (.int (a + b))
  | .int a, .float b => some (.float (ratAdd (mkRat a 1) b))
  | .float a, .int b => some (.float (ratAdd a (mkRat b 1)))
  | .float a, .float b => some (.float (ratAdd a b))
  | .na, .int _ => some .na
  | .na, .float _ => some .na
  | .int _, .na => some .na
  | .float _, .na => some .na
  | .na, .na => some .na
  | _, _ => none

/-- Sum of a list of awarded cells, starting from the Python literal `0`
(source line 75), `none` if some addition raises. -/
def cellSum (cs : List Cell) : Option Cell :=
  cs.foldlM cellAdd (Cell.int 0)

/-- Source `parse_options` (app.py lines 7-23): `pd.isna` check, `str` +
`strip`, split on commas when one is present, strip each piece, drop empty
pieces, canonicalize numeric-looking pieces through `float`, collect into a
set. -/
def parse_options (option_str : Cell) : Finset Token :=
  match option_str with
  | .na => ∅
  | c =>
    let s := pyStrip c.toStr
    let tokens := if s.data.contains ',' then (pySplitComma s).map pyStrip else [s]
    (tokens.filterMap (fun t =>
      if t = "" then none
      else some ((parseTok? t).getD (Token.str t)))).toFinset

/-- Source `evaluate_answer` (app.py lines 26-36).  The `marks` argument and
the returned award are raw cell values: the award is the marks cell verbatim
or the Python int `0`. -/
def evaluate_answer (student_ans correct_ans : Cell) (q_type : String) (marks : Cell) : Cell :=
  let student_set := parse_options student_ans
  let correct_set := parse_options correct_ans
  if q_type = "AND" then
    if student_set = correct_set then marks else .int 0
  else if q_type = "OR" then
    if (student_set ∩ correct_set).Nonempty then marks else .int 0
  else
    if student_set = correct_set then marks else .int 0

/-- The scorer as the engine invokes it: `evaluate_answer` applied to the
question type preprocessed by `str(...).strip().upper() or "NORMAL"`
(source line 81). -/
def score (student_ans correct_ans : Cell) (q_type_raw : String) (marks : Cell) : Cell :=
  let t := pyUpper (pyStrip q_type_raw)
  evaluate_answer student_ans correct_ans (if t = "" then "NORMAL" else t) marks

/-- A pandas row (`Series`): labels in order with their cells. -/
abbrev Row := List (String × Cell)

/-- Label lookup in a row (labels are unique in every frame the application
builds, so first-match lookup is exact). -/
def Row.get : Row → String → Option Cell
  | [], _ => none
  | (k', v) :: r, k => if k' = k then some v else Row.get r k

/-- `Series.__setitem__`: replace the cell in place when the label exists,
append a new label at the end otherwise. -/
def Row.set : Row → String → Cell → Row
  | [], k, v => [(k, v)]
  | (k', v') :: r, k, v => if k' = k then (k, v) :: r else (k', v') :: Row.set r k v

/-- `Series.get(k, d)`. -/
def Row.getD (r : Row) (k : String) (d : Cell) : Cell := (Row.get r k).getD d

/-- A pandas frame: column list plus rows (in every frame pandas builds,
each row carries exactly the frame's columns). -/
structure DataFrame where
  cols : List String
  rows : List Row
deriving DecidableEq, Repr

/-- A (Class, Paper) identity. -/
abbrev RegKey := String × String

/-- The answer-key registry: the `answer_keys` dict, identity → key table. -/
abbrev Registry := List (RegKey × DataFrame)

/-- Dict lookup. -/
def Registry.find : Registry → RegKey → Option DataFrame
  | [], _ => none
  | (k', df) :: r, k => if k' = k then some df else Registry.find r k

/-- Dict entry update (the engine only ever updates keys already present). -/
def Registry.set : Registry → RegKey → DataFrame → Registry
  | [], k, df => [(k, df)]
  | (k', df') :: r, k, df => if k' = k then (k, df) :: r else (k', df') :: Registry.set r k df

/-- Python `c.startswith("Q_")` (source lines 57, 83-84 use the `Q_` naming
convention), as a character-level prefix test. -/
def isQCol (c : String) : Bool := "Q_".data.isPrefixOf c.data

/-- The trimmed (Class, Paper) identity of a student row:
`str(student.get("Class", "")).strip()` and likewise for `Paper`
(source lines 61-62). -/
def studentId (student : Row) : RegKey :=
  (pyStrip ((Row.get student "Class").getD (.str "")).toStr,
   pyStrip ((Row.get student "Paper").getD (.str "")).toStr)

/-- `ans_df["QUESTION_NO"] = ans_df["QUESTION_NO"].astype(str)` (source
line 74): every cell of the `QUESTION_NO` column is replaced, in place, by
the string cell holding its `str` image (`NaN` becomes the string `"nan"`). -/
def astypeQNo (df : DataFrame) : DataFrame :=
  ⟨df.cols, df.rows.map (fun r => Row.set r "QUESTION_NO" (.str (Row.getD r "QUESTION_NO" .na).toStr))⟩

/-- `str(row["QUESTION_NO"]).strip()` of a key row (source line 78). -/
def qNoOf (kr : Row) : String := pyStrip (Row.getD kr "QUESTION_NO" .na).toStr

/-- The student column a key row scores: `f"Q_{q_no}"` (source line 83). -/
def qColOf (kr : Row) : String := "Q_" ++ qNoOf kr

/-- `str(row.get("QUESTION_TYPE", "")).strip().upper() or "NORMAL"`
(source line 81). -/
def qTypeOf (kr : Row) : String :=
  let t := pyUpper (pyStrip (Row.getD kr "QUESTION_TYPE" (.str "")).toStr)
  if t = "" then "NORMAL" else t

/-- The award a key row produces for a student:
`evaluate_answer(student[q_col], row["ANSWER_KEY"], q_type, row["MARKS"])`
(source line 85), with reads spelled via `Row.getD`. -/
def awardFor (student : Row) (kr : Row) : Cell :=
  evaluate_answer (Row.getD student (qColOf kr) .na) (Row.getD kr "ANSWER_KEY" .na)
    (qTypeOf kr) (Row.getD kr "MARKS" .na)

/-- The awards of the key rows whose question column exists in the student
table, in key-file row order. -/
def awardsOf (cols : List String) (student : Row) (krs : List Row) : List Cell :=
  krs.filterMap (fun kr => if qColOf kr ∈ cols then some (awardFor student kr) else none)

/-- One iteration of the key-row loop (source lines 77-89) on the state
(result row, running total, warnings): read `QUESTION_NO`, `ANSWER_KEY`,
`MARKS` (`KeyError` → `none` if a column is absent), score and write when the
question column exists in the student table, warn otherwise.  A warning is
recorded as the pair (missing column, question number) that the source
formats into its message (line 89). -/
def keyRowStep (cols : List String) (student : Row) (st : Row × Cell × List (String × String))
    (kr : Row) : Option (Row × Cell × List (String × String)) :=
  match st with
  | (row_result, total_marks, warns) =>
    match Row.get kr "QUESTION_NO", Row.get kr "ANSWER_KEY", Row.get kr "MARKS" with
    | some qcell, some correct_ans, some marks =>
      let q_no := pyStrip qcell.toStr
      let q_type := qTypeOf kr
      let q_col := "Q_" ++ q_no
      if q_col ∈ cols then
        let awarded := evaluate_answer (Row.getD student q_col .na) correct_ans q_type marks
        match cellAdd total_marks awarded with
        | some total2 => some (Row.set row_result q_col awarded, total2, warns)
        | none => none
      else some (row_result, total_marks, warns ++ [(q_col, q_no)])
    | _, _, _ => none

set_option synthInstance.maxSize 2048 in
instance : DecidableEq (Row × Cell × List (String × String)) := inferInstance

set_option synthInstance.maxSize 2048 in
instance : DecidableEq (Row × Registry × List (String × String)) := inferInstance

set_option synthInstance.maxSize 2048 in
instance : DecidableEq (DataFrame × Registry × List (String × String)) := inferInstance

/-- The key-row loop (source lines 77-89). -/
def scoreFold (cols : List String) (student : Row) :
    List Row → Row × Cell × List (String × String) → Option (Row × Cell × List (String × String))
  | [], st => some st
  | kr :: rest, st =>
    match keyRowStep cols student st kr with
    | none => none
    | some st2 => scoreFold cols student rest st2

/-- Evaluation of one student row (source lines 60-92): identify the key
table by the trimmed (Class, Paper) identity; absent identity → zero out
every question column and the total; otherwise coerce the key table's
`QUESTION_NO` column to strings in place (the registry mutation of line 74),
run the key-row loop starting from a copy of the student row, and write the
accumulated total.  Returns (result row, registry after the call, warnings);
`none` models an uncaught Python exception. -/
def evalRow (cols : List String) (student : Row) (answer_keys : Registry) :
    Option (Row × Registry × List (String × String)) :=
  let all_question_cols := cols.filter isQCol
  match Registry.find answer_keys (studentId student) with
  | none =>
    let r1 := all_question_cols.foldl (fun r c => Row.set r c (.int 0)) student
    some (Row.set r1 "Total_Marks" (.int 0), answer_keys, [])
  | some ans_df =>
    if "QUESTION_NO" ∈ ans_df.cols then
      let ans_df2 := astypeQNo ans_df
      let reg2 := Registry.set answer_keys (studentId student) ans_df2
      match scoreFold cols student ans_df2.rows (student, Cell.int 0, []) with
      | none => none
      | some (r, tot, ws) => some (Row.set r "Total_Marks" tot, reg2, ws)
    else none

/-- The per-student loop of `evaluate` (source lines 60-92), threading the
registry (which line 74 mutates) and collecting result rows and warnings. -/
def evalRows (cols : List String) : List Row → Registry →
    Option (List Row × Registry × List (String × String))
  | [], reg => some ([], reg, [])
  | r :: rest, reg =>
    match evalRow cols r reg with
    | none => none
    | some (r', reg', ws) =>
      match evalRows cols rest reg' with
      | none => none
      | some (rs, reg'', ws') => some (r' :: rs, reg'', ws ++ ws')

/-- Columns of `pd.DataFrame(results)`: union of the rows' labels in order
of first appearance (all result rows of one run share one label list). -/
def unionCols (rows : List Row) : List String :=
  rows.foldl (fun acc r => acc ++ (r.map Prod.fst).filter (fun c => ¬ acc.contains c)) []

/-- Source `evaluate` (app.py lines 55-95). -/
def evaluate (students_df : DataFrame) (answer_keys : Registry) :
    Option (DataFrame × Registry × List (String × String)) :=
  match evalRows students_df.cols students_df.rows answer_keys with
  | none => none
  | some (rs, reg', ws) => some (⟨unionCols rs, rs⟩, reg', ws)

/-- The key rows a student row is scored against (after the `QUESTION_NO`
string coercion); empty when the identity has no key table. -/
def keyRows (reg : Registry) (student : Row) : List Row :=
  match Registry.find reg (studentId student) with
  | none => []
  | some df => (astypeQNo df).rows

/-- The last key row of a list whose question column is `qc`: when several
key rows write the same student column, the file-order-last write is the
one visible in the result row. -/
def lastRef (qc : String) : List Row → Option Row
  | [] => none
  | kr :: rest =>
    match lastRef qc rest with
    | some kr' => some kr'
    | none => if qColOf kr = qc then some kr else none

/-! ## Basic lemmas about the embedding -/

theorem ratAdd_eq_add (a b : ℚ) : ratAdd a b = a + b := by
  conv_rhs => rw [← Rat.num_divInt_den a, ← Rat.num_divInt_den b,
    Rat.divInt_add_divInt _ _ (Int.natCast_ne_zero.mpr a.den_nz) (Int.natCast_ne_zero.mpr b.den_nz)]
  rw [ratAdd, Rat.mkRat_eq_divInt]
  push_cast
  ring_nf

theorem Row.get_set_self (r : Row) (k : String) (v : Cell) :
    Row.get (Row.set r k v) k = some v := by
  induction r with
  | nil => simp [Row.set, Row.get]
  | cons hd tl ih =>
    obtain ⟨pk, pv⟩ := hd
    by_cases h : pk = k <;> simp [Row.set, Row.get, h, ih]

theorem Row.get_set_ne (r : Row) {k k' : String} (h : k ≠ k') (v : Cell) :
    Row.get (Row.set r k v) k' = Row.get r k' := by
  induction r with
  | nil => simp [Row.set, Row.get, h]
  | cons hd tl ih =>
    obtain ⟨pk, pv⟩ := hd
    by_cases hp : pk = k
    · subst hp
      simp [Row.set, Row.get, h, Ne.symm h]
    · by_cases hp' : pk = k' <;> simp [Row.set, Row.get, hp, hp', Ne.symm h, ih]

theorem Row.set_set_self (r : Row) (k : String) (v w : Cell) :
    Row.set (Row.set r k v) k w = Row.set r k w := by
  induction r with
  | nil => simp [Row.set]
  | cons hd tl ih =>
    obtain ⟨pk, pv⟩ := hd
    by_cases h : pk = k <;> simp [Row.set, h, ih]

theorem Row.set_get_self {r : Row} {k : String} {v : Cell} (h : Row.get r k = some v) :
    Row.set r k v = r := by
  induction r with
  | nil => simp [Row.get] at h
  | cons hd tl ih =>
    obtain ⟨pk, pv⟩ := hd
    by_cases hp : pk = k
    · subst hp
      simp [Row.get] at h
      simp [Row.set, h]
    · simp [Row.get, hp] at h
      simp [Row.set, hp, ih h]

theorem Row.isSome_get_set (r : Row) (k k' : String) (v : Cell)
    (h : (Row.get r k').isSome = true) : (Row.get (Row.set r k v) k').isSome = true := by
  by_cases hk : k = k'
  · subst hk; simp [Row.get_set_self]
  · rwa [Row.get_set_ne r hk]

theorem Row.set_set_comm {r : Row} {k k' : String} (hne : k' ≠ k)
    (hk : (Row.get r k).isSome = true) (v v' : Cell) :
    Row.set (Row.set r k v) k' v' = Row.set (Row.set r k' v') k v := by
  induction r with
  | nil => simp [Row.get] at hk
  | cons hd tl ih =>
    obtain ⟨pk, pv⟩ := hd
    by_cases hp : pk = k
    · subst hp
      have hp' : pk ≠ k' := fun h => hne h.symm
      simp [Row.set, hp', hne, Ne.symm hne]
    · by_cases hp' : pk = k'
      · subst hp'
        simp [Row.set, hp, hne, Ne.symm hne]
      · simp only [Row.get, hp, if_false] at hk
        simp [Row.set, hp, hp', ih hk]

theorem Registry.find_set_self (reg : Registry) (k : RegKey) (df : DataFrame) :
    Registry.find (Registry.set reg k df) k = some df := by
  induction reg with
  | nil => simp [Registry.set, Registry.find]
  | cons hd tl ih =>
    obtain ⟨pk, pv⟩ := hd
    by_cases h : pk = k <;> simp [Registry.set, Registry.find, h, ih]

theorem Registry.find_set_ne (reg : Registry) {k k' : RegKey} (h : k ≠ k') (df : DataFrame) :
    Registry.find (Registry.set reg k df) k' = Registry.find reg k' := by
  induction reg with
  | nil => simp [Registry.set, Registry.find, h]
  | cons hd tl ih =>
    obtain ⟨pk, pv⟩ := hd
    by_cases hp : pk = k
    · subst hp
      simp [Registry.set, Registry.find, h, Ne.symm h]
    · by_cases hp' : pk = k' <;> simp [Registry.set, Registry.find, hp, hp', Ne.symm h, ih]

theorem isQCol_append (s : String) : isQCol ("Q_" ++ s) = true := by
  simp only [isQCol, String.data_append, List.isPrefixOf_iff_prefix]
  exact List.prefix_append _ _

theorem isQCol_qColOf (kr : Row) : isQCol (qColOf kr) = true := isQCol_append _

theorem keyRowStep_some_cases {cols : List String} {student : Row}
    {r : Row} {t : Cell} {w : List (String × String)} {r2 : Row} {t2 : Cell}
    {w2 : List (String × String)} {kr : Row}
    (h : keyRowStep cols student (r, t, w) kr = some (r2, t2, w2)) :
    (qColOf kr ∈ cols ∧ r2 = Row.set r (qColOf kr) (awardFor student kr) ∧
      cellAdd t (awardFor student kr) = some t2 ∧ w2 = w) ∨
    (qColOf kr ∉ cols ∧ r2 = r ∧ t2 = t ∧ w2 = w ++ [(qColOf kr, qNoOf kr)]) := by
  unfold keyRowStep at h
  cases hq : Row.get kr "QUESTION_NO" with
  | none => rw [hq] at h; simp at h
  | some qcell =>
  cases hA : Row.get kr "ANSWER_KEY" with
  | none => rw [hq, hA] at h; simp at h
  | some correct_ans =>
  cases hM : Row.get kr "MARKS" with
  | none => rw [hq, hA, hM] at h; simp at h
  | some marks =>
  rw [hq, hA, hM] at h
  have hqno : qNoOf kr = pyStrip qcell.toStr := by simp [qNoOf, Row.getD, hq]
  have hcol : qColOf kr = "Q_" ++ pyStrip qcell.toStr := by rw [qColOf, hqno]
  have haward : awardFor student kr =
      evaluate_answer (Row.getD student ("Q_" ++ pyStrip qcell.toStr) .na) correct_ans
        (qTypeOf kr) marks := by
    simp [awardFor, Row.getD, hA, hM, hcol]
  by_cases hin : "Q_" ++ pyStrip qcell.toStr ∈ cols
  · left
    rw [hcol, haward]
    simp only [hin, if_true] at h
    cases hadd : cellAdd t (evaluate_answer (Row.getD student ("Q_" ++ pyStrip qcell.toStr) .na)
        correct_ans (qTypeOf kr) marks) with
    | none => rw [hadd] at h; simp at h
    | some tot2 =>
      rw [hadd] at h
      simp only [Option.some.injEq, Prod.mk.injEq] at h
      obtain ⟨h1, h2, h3⟩ := h
      subst h2
      exact ⟨hin, h1.symm, rfl, h3.symm⟩
  · right
    rw [hcol, hqno]
    simp only [hin, if_false] at h
    simp only [Option.some.injEq, Prod.mk.injEq] at h
    exact ⟨hin, h.1.symm, h.2.1.symm, h.2.2.symm⟩

theorem scoreFold_append (cols : List String) (student : Row) (l1 l2 : List Row)
    (st : Row × Cell × List (String × String)) :
    scoreFold cols student (l1 ++ l2) st =
      (scoreFold cols student l1 st).bind (fun st2 => scoreFold cols student l2 st2) := by
  induction l1 generalizing st with
  | nil => simp [scoreFold]
  | cons kr rest ih =>
    simp only [List.cons_append, scoreFold]
    cases keyRowStep cols student st kr with
    | none => simp
    | some st2 => simp [ih]

theorem scoreFold_total {cols : List String} {student : Row} {krs : List Row}
    {r0 : Row} {t0 : Cell} {w0 : List (String × String)} {r1 : Row} {t1 : Cell}
    {w1 : List (String × String)}
    (h : scoreFold cols student krs (r0, t0, w0) = some (r1, t1, w1)) :
    (awardsOf cols student krs).foldlM cellAdd t0 = some t1 := by
  induction krs generalizing r0 t0 w0 with
  | nil =>
    simp only [scoreFold, Option.some.injEq, Prod.mk.injEq] at h
    simp [awardsOf, h.2.1]
  | cons kr rest ih =>
    simp only [scoreFold] at h
    cases hstep : keyRowStep cols student (r0, t0, w0) kr with
    | none => rw [hstep] at h; simp at h
    | some st2 =>
      rw [hstep] at h
      obtain ⟨r2, t2, w2⟩ := st2
      rcases keyRowStep_some_cases hstep with ⟨hin, _, hadd, _⟩ | ⟨hout, _, ht, _⟩
      · simp only [awardsOf, List.filterMap_cons, hin, if_true, List.foldlM_cons, hadd,
          Option.bind_eq_bind, Option.some_bind]
        exact ih h
      · simp only [awardsOf, List.filterMap_cons, hout, if_false]
        subst ht
        exact ih h

theorem scoreFold_get_frame {cols : List String} {student : Row} {krs : List Row}
    {r0 : Row} {t0 : Cell} {w0 : List (String × String)} {r1 : Row} {t1 : Cell}
    {w1 : List (String × String)} {c : String}
    (hc : ∀ kr ∈ krs, qColOf kr ≠ c)
    (h : scoreFold cols student krs (r0, t0, w0) = some (r1, t1, w1)) :
    Row.get r1 c = Row.get r0 c := by
  induction krs generalizing r0 t0 w0 with
  | nil =>
    simp only [scoreFold, Option.some.injEq, Prod.mk.injEq] at h
    rw [h.1]
  | cons kr rest ih =>
    simp only [scoreFold] at h
    cases hstep : keyRowStep cols student (r0, t0, w0) kr with
    | none => rw [hstep] at h; simp at h
    | some st2 =>
      rw [hstep] at h
      obtain ⟨r2, t2, w2⟩ := st2
      have hrest : ∀ kr' ∈ rest, qColOf kr' ≠ c := fun kr' hm => hc kr' (List.mem_cons_of_mem _ hm)
      rcases keyRowStep_some_cases hstep with ⟨_, hr, _, _⟩ | ⟨_, hr, _, _⟩
      · rw [ih hrest h, hr, Row.get_set_ne _ (hc kr (List.mem_cons_self _ _))]
      · rw [ih hrest h, hr]

theorem scoreFold_get_isSome {cols : List String} {student : Row} {krs : List Row}
    {r0 : Row} {t0 : Cell} {w0 : List (String × String)} {r1 : Row} {t1 : Cell}
    {w1 : List (String × String)} {c : String}
    (hp : (Row.get r0 c).isSome = true)
    (h : scoreFold cols student krs (r0, t0, w0) = some (r1, t1, w1)) :
    (Row.get r1 c).isSome = true := by
  induction krs generalizing r0 t0 w0 with
  | nil =>
    simp only [scoreFold, Option.some.injEq, Prod.mk.injEq] at h
    rw [← h.1]; exact hp
  | cons kr rest ih =>
    simp only [scoreFold] at h
    cases hstep : keyRowStep cols student (r0, t0, w0) kr with
    | none => rw [hstep] at h; simp at h
    | some st2 =>
      rw [hstep] at h
      obtain ⟨r2, t2, w2⟩ := st2
      rcases keyRowStep_some_cases hstep with ⟨_, hr, _, _⟩ | ⟨_, hr, _, _⟩
      · exact ih (hr ▸ Row.isSome_get_set _ _ _ _ hp) h
      · exact ih (hr ▸ hp) h

theorem lastRef_eq_none {qc : String} {krs : List Row} (h : lastRef qc krs = none) :
    ∀ kr ∈ krs, qColOf kr ≠ qc := by
  induction krs with
  | nil => intro kr hm; simp at hm
  | cons kr0 rest ih =>
    intro kr hm
    simp only [lastRef] at h
    cases hlr : lastRef qc rest with
    | some kr'' => rw [hlr] at h; simp at h
    | none =>
      rw [hlr] at h
      by_cases hq0 : qColOf kr0 = qc
      · rw [if_pos hq0] at h; simp at h
      · rcases List.mem_cons.mp hm with he | hm'
        · subst he; exact hq0
        · exact ih hlr kr hm'

theorem lastRef_isSome_of_mem {qc : String} {krs : List Row} {kr : Row}
    (hm : kr ∈ krs) (hq : qColOf kr = qc) : ∃ kr', lastRef qc krs = some kr' := by
  induction krs with
  | nil => simp at hm
  | cons kr0 rest ih =>
    simp only [lastRef]
    rcases List.mem_cons.mp hm with he | hm'
    · subst he
      cases hlr : lastRef qc rest with
      | some kr'' => exact ⟨kr'', rfl⟩
      | none => exact ⟨kr, by rw [if_pos hq]⟩
    · obtain ⟨kr', hlr⟩ := ih hm'
      rw [hlr]
      exact ⟨kr', rfl⟩

theorem lastRef_mem {qc : String} {krs : List Row} {kr' : Row}
    (h : lastRef qc krs = some kr') : kr' ∈ krs ∧ qColOf kr' = qc := by
  induction krs generalizing kr' with
  | nil => simp [lastRef] at h
  | cons kr0 rest ih =>
    simp only [lastRef] at h
    cases hlr : lastRef qc rest with
    | some kr'' =>
      rw [hlr] at h
      have he : kr'' = kr' := Option.some.inj h
      subst he
      obtain ⟨hm, hq⟩ := ih hlr
      exact ⟨List.mem_cons_of_mem _ hm, hq⟩
    | none =>
      rw [hlr] at h
      by_cases hq0 : qColOf kr0 = qc
      · rw [if_pos hq0] at h
        have he : kr0 = kr' := Option.some.inj h
        subst he
        exact ⟨List.mem_cons_self _ _, hq0⟩
      · rw [if_neg hq0] at h; simp at h

theorem scoreFold_get_last {cols : List String} {student : Row} {krs : List Row}
    {r0 : Row} {t0 : Cell} {w0 : List (String × String)} {r1 : Row} {t1 : Cell}
    {w1 : List (String × String)} {qc : String} {krL : Row}
    (h : scoreFold cols student krs (r0, t0, w0) = some (r1, t1, w1))
    (hin : qc ∈ cols)
    (hlast : lastRef qc krs = some krL) :
    Row.get r1 qc = some (awardFor student krL) := by
  induction krs generalizing r0 t0 w0 krL with
  | nil => simp [lastRef] at hlast
  | cons kr0 rest ih =>
    simp only [scoreFold] at h
    cases hstep : keyRowStep cols student (r0, t0, w0) kr0 with
    | none => rw [hstep] at h; simp at h
    | some st2 =>
      rw [hstep] at h
      obtain ⟨r2, t2, w2⟩ := st2
      simp only [lastRef] at hlast
      cases hlr : lastRef qc rest with
      | some kr'' =>
        rw [hlr] at hlast
        have he : kr'' = krL := Option.some.inj hlast
        subst he
        exact ih h hlr
      | none =>
        rw [hlr] at hlast
        by_cases hq0 : qColOf kr0 = qc
        · rw [if_pos hq0] at hlast
          have he : kr0 = krL := Option.some.inj hlast
          subst he
          have hframe := scoreFold_get_frame (lastRef_eq_none hlr) h
          rw [hframe]
          rcases keyRowStep_some_cases hstep with ⟨_, hr, _, _⟩ | ⟨hout, _, _, _⟩
          · rw [hr, hq0, Row.get_set_self]
          · rw [hq0] at hout
            exact absurd hin hout
        · rw [if_neg hq0] at hlast; simp at hlast

theorem keyRowStep_set_comm {cols : List String} {student : Row} {r : Row} {t : Cell}
    {w : List (String × String)} {kr : Row} {q : String} {v : Cell}
    (hq : qColOf kr ≠ q) (hpres : (Row.get r q).isSome = true) :
    keyRowStep cols (Row.set student q v) (Row.set r q v, t, w) kr =
      (keyRowStep cols student (r, t, w) kr).map
        (fun st => (Row.set st.1 q v, st.2.1, st.2.2)) := by
  unfold keyRowStep
  cases hqc : Row.get kr "QUESTION_NO" with
  | none => simp
  | some qcell =>
  cases hA : Row.get kr "ANSWER_KEY" with
  | none => simp
  | some correct_ans =>
  cases hM : Row.get kr "MARKS" with
  | none => simp
  | some marks =>
  simp only
  have hcol : qColOf kr = "Q_" ++ pyStrip qcell.toStr := by
    simp [qColOf, qNoOf, Row.getD, hqc]
  rw [← hcol]
  by_cases hin : qColOf kr ∈ cols
  · simp only [hin, if_true]
    have hread : Row.getD (Row.set student q v) (qColOf kr) .na =
        Row.getD student (qColOf kr) .na := by
      rw [Row.getD, Row.getD, Row.get_set_ne _ (fun he => hq he.symm)]
    rw [hread]
    cases hadd : cellAdd t (evaluate_answer (Row.getD student (qColOf kr) .na) correct_ans
        (qTypeOf kr) marks) with
    | none => simp [hadd]
    | some tot2 =>
      simp only [hadd]
      rw [Row.set_set_comm hq hpres]
      simp
  · simp [hin]

theorem scoreFold_set_comm {cols : List String} {student : Row} {krs : List Row}
    {r : Row} {t : Cell} {w : List (String × String)} {q : String} {v : Cell}
    (hq : ∀ kr ∈ krs, qColOf kr ≠ q) (hpres : (Row.get r q).isSome = true) :
    scoreFold cols (Row.set student q v) krs (Row.set r q v, t, w) =
      (scoreFold cols student krs (r, t, w)).map
        (fun st => (Row.set st.1 q v, st.2.1, st.2.2)) := by
  induction krs generalizing r t w with
  | nil => simp [scoreFold]
  | cons kr rest ih =>
    simp only [scoreFold]
    rw [keyRowStep_set_comm (hq kr (List.mem_cons_self _ _)) hpres]
    cases hstep : keyRowStep cols student (r, t, w) kr with
    | none => simp
    | some st2 =>
      obtain ⟨r2, t2, w2⟩ := st2
      simp only [Option.map_some]
      have hp2 : (Row.get r2 q).isSome = true := by
        rcases keyRowStep_some_cases hstep with ⟨_, hr, _, _⟩ | ⟨_, hr, _, _⟩
        · exact hr ▸ Row.isSome_get_set _ _ _ _ hpres
        · exact hr ▸ hpres
      exact ih (fun kr' hm => hq kr' (List.mem_cons_of_mem _ hm)) hp2

theorem astypeQNo_idem (df : DataFrame) : astypeQNo (astypeQNo df) = astypeQNo df := by
  unfold astypeQNo
  simp only [List.map_map]
  congr 1
  apply List.map_congr_left
  intro r _
  simp only [Function.comp_apply, Row.getD]
  rw [Row.get_set_self]
  simp only [Option.getD_some, Cell.toStr]
  rw [Row.set_set_self]

theorem evalRow_registry {cols : List String} {student : Row} {reg : Registry}
    {r' : Row} {reg' : Registry} {ws : List (String × String)}
    (h : evalRow cols student reg = some (r', reg', ws)) :
    ∀ k, Registry.find reg' k =
      if studentId student = k then (Registry.find reg k).map astypeQNo
      else Registry.find reg k := by
  intro k
  unfold evalRow at h
  cases hf : Registry.find reg (studentId student) with
  | none =>
    rw [hf] at h
    simp only [Option.some.injEq, Prod.mk.injEq] at h
    rw [← h.2.1]
    by_cases hk : studentId student = k
    · rw [if_pos hk, ← hk, hf]
      rfl
    · rw [if_neg hk]
  | some tbl =>
    rw [hf] at h
    by_cases hqn : "QUESTION_NO" ∈ tbl.cols
    · simp only [hqn, if_true] at h
      cases hsf : scoreFold cols student (astypeQNo tbl).rows (student, Cell.int 0, []) with
      | none => rw [hsf] at h; simp at h
      | some st =>
        rw [hsf] at h
        obtain ⟨r1, t1, w1⟩ := st
        simp only [Option.some.injEq, Prod.mk.injEq] at h
        rw [← h.2.1]
        by_cases hk : studentId student = k
        · rw [if_pos hk, ← hk, Registry.find_set_self, hf]
          rfl
        · rw [if_neg hk, Registry.find_set_ne _ hk]
    · simp [hqn] at h

theorem evalRows_registry {cols : List String} {rows : List Row} {reg : Registry}
    {out : List Row × Registry × List (String × String)}
    (h : evalRows cols rows reg = some out) :
    ∀ k, Registry.find out.2.1 k =
      if ∃ s ∈ rows, studentId s = k then (Registry.find reg k).map astypeQNo
      else Registry.find reg k := by
  induction rows generalizing reg out with
  | nil =>
    simp only [evalRows, Option.some.injEq] at h
    intro k
    rw [← h]
    simp
  | cons s rest ih =>
    intro k
    simp only [evalRows] at h
    cases hstep : evalRow cols s reg with
    | none => rw [hstep] at h; simp at h
    | some st =>
      rw [hstep] at h
      obtain ⟨r', reg1, ws⟩ := st
      dsimp only at h
      cases hrest : evalRows cols rest reg1 with
      | none => rw [hrest] at h; simp at h
      | some out2 =>
        rw [hrest] at h
        obtain ⟨rs, reg2, ws'⟩ := out2
        simp only [Option.some.injEq, Prod.mk.injEq] at h
        have hout : out.2.1 = reg2 := by rw [← h]
        rw [hout]
        have hstep' := evalRow_registry hstep k
        have ih' := ih hrest k
        by_cases hhead : studentId s = k
        · have hcond : ∃ s' ∈ s :: rest, studentId s' = k :=
            ⟨s, List.mem_cons_self _ _, hhead⟩
          rw [if_pos hcond]
          rw [if_pos hhead] at hstep'
          by_cases hrestex : ∃ s' ∈ rest, studentId s' = k
          · rw [if_pos hrestex] at ih'
            rw [ih', hstep']
            cases Registry.find reg k with
            | none => rfl
            | some tbl => simp [astypeQNo_idem]
          · rw [if_neg hrestex] at ih'
            rw [ih', hstep']
        · rw [if_neg hhead] at hstep'
          by_cases hrestex : ∃ s' ∈ rest, studentId s' = k
          · obtain ⟨s', hm', hid'⟩ := hrestex
            have hcond : ∃ s'' ∈ s :: rest, studentId s'' = k :=
              ⟨s', List.mem_cons_of_mem _ hm', hid'⟩
            rw [if_pos hcond]
            rw [if_pos ⟨s', hm', hid'⟩] at ih'
            rw [ih', hstep']
          · have hcond : ¬ ∃ s'' ∈ s :: rest, studentId s'' = k := by
              rintro ⟨s'', hm, hid⟩
              rcases List.mem_cons.mp hm with he | hm'
              · exact hhead (he ▸ hid)
              · exact hrestex ⟨s'', hm', hid⟩
            rw [if_neg hcond]
            rw [if_neg hrestex] at ih'
            rw [ih', hstep']

theorem get_foldl_zero_not_mem {l : List String} {r : Row} {c : String} (hc : c ∉ l) :
    Row.get (l.foldl (fun r' c' => Row.set r' c' (.int 0)) r) c = Row.get r c := by
  induction l generalizing r with
  | nil => rfl
  | cons a tl ih =>
    simp only [List.foldl_cons]
    rw [ih (fun hm => hc (List.mem_cons_of_mem _ hm))]
    exact Row.get_set_ne _ (fun he => hc (List.mem_cons.mpr (Or.inl he.symm))) _

theorem get_foldl_zero_mem {l : List String} {r : Row} {c : String} (hc : c ∈ l) :
    Row.get (l.foldl (fun r' c' => Row.set r' c' (.int 0)) r) c = some (.int 0) := by
  induction l generalizing r with
  | nil => simp at hc
  | cons a tl ih =>
    simp only [List.foldl_cons]
    by_cases hm : c ∈ tl
    · exact ih hm
    · have hca : c = a := by
        rcases List.mem_cons.mp hc with hh | hh
        · exact hh
        · exact absurd hh hm
      subst hca
      rw [get_foldl_zero_not_mem hm, Row.get_set_self]

/-! ## The claims -/

theorem evalRow_matched_parts {cols : List String} {student : Row} {reg : Registry}
    {tbl : DataFrame} {r' : Row} {reg' : Registry} {ws : List (String × String)}
    (hf : Registry.find reg (studentId student) = some tbl)
    (h : evalRow cols student reg = some (r', reg', ws)) :
    ∃ r1 t1, scoreFold cols student (astypeQNo tbl).rows (student, Cell.int 0, []) =
        some (r1, t1, ws) ∧ r' = Row.set r1 "Total_Marks" t1 ∧
      reg' = Registry.set reg (studentId student) (astypeQNo tbl) := by
  unfold evalRow at h
  rw [hf] at h
  by_cases hqn : "QUESTION_NO" ∈ tbl.cols
  · simp only [hqn, if_true] at h
    cases hsf : scoreFold cols student (astypeQNo tbl).rows (student, Cell.int 0, []) with
    | none => rw [hsf] at h; simp at h
    | some st =>
      rw [hsf] at h
      obtain ⟨r1, t1, w1⟩ := st
      simp only [Option.some.injEq, Prod.mk.injEq] at h
      refine ⟨r1, t1, ?_, h.1.symm, h.2.1.symm⟩
      rw [← h.2.2]
  · simp [hqn] at h

/-- C1: a student row whose trimmed (Class, Paper) identity has no entry in
the answer-key registry gets every question column (every student-table
column with the `Q_` naming convention) set to `0` and `Total_Marks` set to
`0`, raising no error, whatever the student's answers are (source lines
65-71). -/
theorem claim_C1 (cols : List String) (student : Row) (reg : Registry)
    (h : Registry.find reg (studentId student) = none) :
    ∃ r', evalRow cols student reg = some (r', reg, []) ∧
      Row.get r' "Total_Marks" = some (.int 0) ∧
      ∀ c ∈ cols, isQCol c = true → Row.get r' c = some (.int 0) := by
  refine ⟨Row.set ((cols.filter isQCol).foldl (fun r c => Row.set r c (.int 0)) student)
    "Total_Marks" (.int 0), ?_, ?_, ?_⟩
  · unfold evalRow
    rw [h]
  · rw [Row.get_set_self]
  · intro c hc hq
    have hcT : c ≠ "Total_Marks" := by
      intro he
      rw [he] at hq
      exact absurd hq (by decide)
    rw [Row.get_set_ne _ (fun he => hcT he.symm)]
    exact get_foldl_zero_mem (List.mem_filter.mpr ⟨hc, hq⟩)

/-- Witness for C1 at a concrete input: the student's (Class, Paper) is
("3", "1") while the registry only holds ("1", "1"). -/
theorem claim_C1_witness :
    ∃ r', evalRow ["Class", "Paper", "Q_1"]
        [("Class", .str "3"), ("Paper", .str "1"), ("Q_1", .str "A")]
        [(("1", "1"), ⟨["QUESTION_NO", "ANSWER_KEY", "MARKS"], []⟩)] =
        some (r', [(("1", "1"), ⟨["QUESTION_NO", "ANSWER_KEY", "MARKS"], []⟩)], []) ∧
      Row.get r' "Total_Marks" = some (.int 0) ∧
      ∀ c ∈ ["Class", "Paper", "Q_1"], isQCol c = true → Row.get r' c = some (.int 0) :=
  claim_C1 _ _ _ (by decide)

/-- C2: with question type `"OR"` the scorer awards the marks value verbatim
exactly when the two normalized answer sets intersect, and the Python int
`0` otherwise (source lines 33-34). -/
theorem claim_C2 (student_ans correct_ans marks : Cell) :
    score student_ans correct_ans "OR" marks =
      if (parse_options student_ans ∩ parse_options correct_ans).Nonempty then marks
      else .int 0 := by
  have h : pyUpper (pyStrip "OR") = "OR" := by decide
  simp only [score, h]
  simp [evaluate_answer]

/-- C3 as frozen is refuted by the question type `" or "`: its uppercasing
`" OR "` differs from `"OR"`, yet the engine strips it first (line 81), so
the OR rule applies: marks are awarded on mere intersection although the two
answer sets differ. -/
theorem claim_C3_counterexample :
    pyUpper " or " ≠ "OR" ∧
    parse_options (.str "A,B") ≠ parse_options (.str "B,C") ∧
    score (.str "A,B") (.str "B,C") " or " (.int 5) = .int 5 :=
  ⟨by decide, by decide, by decide⟩

/-- C3 (amended: "trimmed, case-insensitive uppercasing" instead of
"case-insensitive uppercasing"): for every question type whose stripped
uppercasing is not `"OR"` — including `"AND"`, `"NORMAL"`, the empty string
and any unrecognized string — the scorer awards marks exactly on equality of
the two normalized answer sets (source lines 31-32, 35-36, 81). -/
theorem claim_C3 (student_ans correct_ans marks : Cell) (q_type_raw : String)
    (h : pyUpper (pyStrip q_type_raw) ≠ "OR") :
    score student_ans correct_ans q_type_raw marks =
      if parse_options student_ans = parse_options correct_ans then marks else .int 0 := by
  simp only [score]
  by_cases h0 : pyUpper (pyStrip q_type_raw) = ""
  · simp [h0, evaluate_answer]
  · rw [if_neg h0]
    by_cases hA : pyUpper (pyStrip q_type_raw) = "AND"
    · simp [hA, evaluate_answer]
    · simp [evaluate_answer, hA, h]

/-- Witness for C3 at the concrete type string `"and"`. -/
theorem claim_C3_witness :
    pyUpper (pyStrip "and") ≠ "OR" ∧
    score (.str "A,B") (.str "B,A") "and" (.int 5) =
      (if parse_options (.str "A,B") = parse_options (.str "B,A") then Cell.int 5
       else .int 0) :=
  ⟨by decide, claim_C3 _ _ _ _ (by decide)⟩

/-- C4: normalization canonicalizes numeric tokens — `"2"`, `"2.0"` and
`" 2 "` all normalize to the singleton of the canonical numeric token 2
(Python renders it as the string `"2"`) — while non-numeric tokens stay
case-sensitive, so `"Delhi"` and `"delhi"` normalize differently
(source lines 7-23). -/
theorem claim_C4 :
    (parse_options (.str "2") = {Token.num 2} ∧
     parse_options (.str "2.0") = {Token.num 2} ∧
     parse_options (.str " 2 ") = {Token.num 2}) ∧
    parse_options (.str "Delhi") ≠ parse_options (.str "delhi") := by decide

/-- C5: normalization of a comma-separated raw string is order-independent
and deduplicating (source lines 7-23). -/
theorem claim_C5 :
    parse_options (.str "1,2") = parse_options (.str "2,1") ∧
    parse_options (.str "1,2") = parse_options (.str "1,2,1") := by decide

/-- C6: whenever the evaluation of a student row returns, the `Total_Marks`
cell of the result row is exactly the running sum of the awards that the
scorer produced for the key rows whose question column exists in the student
table — recomputed per row from `0` (source lines 75-92); for an unmatched
identity the key-row list is empty and the total is `0`. -/
theorem claim_C6 (cols : List String) (student : Row) (reg : Registry)
    (r' : Row) (reg' : Registry) (ws : List (String × String))
    (h : evalRow cols student reg = some (r', reg', ws)) :
    Row.get r' "Total_Marks" = cellSum (awardsOf cols student (keyRows reg student)) := by
  unfold evalRow at h
  cases hf : Registry.find reg (studentId student) with
  | none =>
    rw [hf] at h
    simp only [Option.some.injEq, Prod.mk.injEq] at h
    rw [← h.1, Row.get_set_self]
    simp [keyRows, hf, awardsOf, cellSum]
  | some tbl =>
    rw [hf] at h
    by_cases hqn : "QUESTION_NO" ∈ tbl.cols
    · simp only [hqn, if_true] at h
      cases hsf : scoreFold cols student (astypeQNo tbl).rows (student, Cell.int 0, []) with
      | none => rw [hsf] at h; simp at h
      | some st =>
        rw [hsf] at h
        obtain ⟨r1, t1, w1⟩ := st
        simp only [Option.some.injEq, Prod.mk.injEq] at h
        rw [← h.1, Row.get_set_self]
        have hk : keyRows reg student = (astypeQNo tbl).rows := by simp [keyRows, hf]
        rw [hk, cellSum]
        exact (scoreFold_total hsf).symm
    · simp [hqn] at h

/-- Witness for C6 at a concrete input: one scored question (10 marks
awarded), one key row whose question column is missing. -/
theorem claim_C6_witness :
    Row.get [("Class", Cell.str "1"), ("Paper", .str "1"), ("Q_1", .int 10),
        ("Q_2", .str "X"), ("Total_Marks", .int 10)] "Total_Marks" =
      cellSum (awardsOf ["Class", "Paper", "Q_1", "Q_2"]
        [("Class", .str "1"), ("Paper", .str "1"), ("Q_1", .str "A,B"), ("Q_2", .str "X")]
        (keyRows [(("1", "1"), ⟨["QUESTION_NO", "ANSWER_KEY", "MARKS", "QUESTION_TYPE"],
          [[("QUESTION_NO", .int 1), ("ANSWER_KEY", .str "B,A"), ("MARKS", .int 10),
            ("QUESTION_TYPE", .str "AND")],
           [("QUESTION_NO", .int 3), ("ANSWER_KEY", .str "C"), ("MARKS", .int 4),
            ("QUESTION_TYPE", .na)]]⟩)]
          [("Class", .str "1"), ("Paper", .str "1"), ("Q_1", .str "A,B"), ("Q_2", .str "X")])) :=
  claim_C6 ["Class", "Paper", "Q_1", "Q_2"]
    [("Class", .str "1"), ("Paper", .str "1"), ("Q_1", .str "A,B"), ("Q_2", .str "X")]
    [(("1", "1"), ⟨["QUESTION_NO", "ANSWER_KEY", "MARKS", "QUESTION_TYPE"],
      [[("QUESTION_NO", .int 1), ("ANSWER_KEY", .str "B,A"), ("MARKS", .int 10),
        ("QUESTION_TYPE", .str "AND")],
       [("QUESTION_NO", .int 3), ("ANSWER_KEY", .str "C"), ("MARKS", .int 4),
        ("QUESTION_TYPE", .na)]]⟩)]
    [("Class", .str "1"), ("Paper", .str "1"), ("Q_1", .int 10), ("Q_2", .str "X"),
      ("Total_Marks", .int 10)]
    [(("1", "1"), ⟨["QUESTION_NO", "ANSWER_KEY", "MARKS", "QUESTION_TYPE"],
      [[("QUESTION_NO", .str "1"), ("ANSWER_KEY", .str "B,A"), ("MARKS", .int 10),
        ("QUESTION_TYPE", .str "AND")],
       [("QUESTION_NO", .str "3"), ("ANSWER_KEY", .str "C"), ("MARKS", .int 4),
        ("QUESTION_TYPE", .na)]]⟩)]
    [("Q_3", "3")] (by decide)

/-- C7: a key row whose expected question column is absent from the student
table only appends its warning: the result row and the running total that the
remaining key rows start from are exactly those of the run without that key
row, so the question contributes zero, no column is written for it, awards
already computed are untouched, and evaluation continues
(source lines 83-89). -/
theorem claim_C7 (cols : List String) (student : Row) (pre post : List Row) (bad : Row)
    (qc ac mc : Cell) (st0 : Row × Cell × List (String × String))
    (hq : Row.get bad "QUESTION_NO" = some qc)
    (ha : Row.get bad "ANSWER_KEY" = some ac)
    (hm : Row.get bad "MARKS" = some mc)
    (hmiss : qColOf bad ∉ cols) :
    scoreFold cols student (pre ++ bad :: post) st0 =
      (scoreFold cols student pre st0).bind
        (fun st => scoreFold cols student post
          (st.1, st.2.1, st.2.2 ++ [(qColOf bad, qNoOf bad)])) := by
  rw [scoreFold_append]
  cases scoreFold cols student pre st0 with
  | none => rfl
  | some st1 =>
    obtain ⟨r1, t1, w1⟩ := st1
    have hcol : qColOf bad = "Q_" ++ pyStrip qc.toStr := by
      simp [qColOf, qNoOf, Row.getD, hq]
    have hqno : qNoOf bad = pyStrip qc.toStr := by
      simp [qNoOf, Row.getD, hq]
    have hstep : keyRowStep cols student (r1, t1, w1) bad =
        some (r1, t1, w1 ++ [(qColOf bad, qNoOf bad)]) := by
      unfold keyRowStep
      rw [hq, ha, hm]
      simp only
      rw [← hcol, ← hqno]
      simp [hmiss]
    show scoreFold cols student (bad :: post) (r1, t1, w1) =
      scoreFold cols student post (r1, t1, w1 ++ [(qColOf bad, qNoOf bad)])
    simp only [scoreFold]
    rw [hstep]

/-- Witness for C7 at a concrete input: the key row for question 9 has no
`Q_9` column in the student table. -/
theorem claim_C7_witness :
    scoreFold ["Class", "Paper", "Q_1"]
        [("Class", .str "1"), ("Paper", .str "1"), ("Q_1", .str "A")]
        ([[("QUESTION_NO", .str "1"), ("ANSWER_KEY", .str "A"), ("MARKS", .int 5)]] ++
          [("QUESTION_NO", .str "9"), ("ANSWER_KEY", .str "B"), ("MARKS", .int 7)] ::
          [[("QUESTION_NO", .str "1"), ("ANSWER_KEY", .str "Z"), ("MARKS", .int 3)]])
        ([("Class", .str "1"), ("Paper", .str "1"), ("Q_1", .str "A")], Cell.int 0, []) =
      (scoreFold ["Class", "Paper", "Q_1"]
        [("Class", .str "1"), ("Paper", .str "1"), ("Q_1", .str "A")]
        [[("QUESTION_NO", .str "1"), ("ANSWER_KEY", .str "A"), ("MARKS", .int 5)]]
        ([("Class", .str "1"), ("Paper", .str "1"), ("Q_1", .str "A")], Cell.int 0, [])).bind
        (fun st => scoreFold ["Class", "Paper", "Q_1"]
          [("Class", .str "1"), ("Paper", .str "1"), ("Q_1", .str "A")]
          [[("QUESTION_NO", .str "1"), ("ANSWER_KEY", .str "Z"), ("MARKS", .int 3)]]
          (st.1, st.2.1, st.2.2 ++
            [(qColOf [("QUESTION_NO", .str "9"), ("ANSWER_KEY", .str "B"), ("MARKS", .int 7)],
              qNoOf [("QUESTION_NO", .str "9"), ("ANSWER_KEY", .str "B"), ("MARKS", .int 7)])])) :=
  claim_C7 ["Class", "Paper", "Q_1"]
    [("Class", .str "1"), ("Paper", .str "1"), ("Q_1", .str "A")]
    [[("QUESTION_NO", .str "1"), ("ANSWER_KEY", .str "A"), ("MARKS", .int 5)]]
    [[("QUESTION_NO", .str "1"), ("ANSWER_KEY", .str "Z"), ("MARKS", .int 3)]]
    [("QUESTION_NO", .str "9"), ("ANSWER_KEY", .str "B"), ("MARKS", .int 7)]
    (.str "9") (.str "B") (.int 7)
    ([("Class", .str "1"), ("Paper", .str "1"), ("Q_1", .str "A")], Cell.int 0, [])
    (by decide) (by decide) (by decide) (by decide)

/-- C8 as frozen is refuted: for a matched student, a `Q_` column of the
student table that no key row references (here `Q_2`) keeps the student's
raw answer string in the result row instead of an awarded numeric value. -/
theorem claim_C8_counterexample :
    (evalRow ["Class", "Paper", "Q_1", "Q_2"]
        [("Class", .str "1"), ("Paper", .str "1"), ("Q_1", .str "A,B"), ("Q_2", .str "X")]
        [(("1", "1"), ⟨["QUESTION_NO", "ANSWER_KEY", "MARKS", "QUESTION_TYPE"],
          [[("QUESTION_NO", .int 1), ("ANSWER_KEY", .str "B,A"), ("MARKS", .int 10),
            ("QUESTION_TYPE", .str "AND")]]⟩)]).bind (fun out => Row.get out.1 "Q_2") =
      some (.str "X") := by decide

/-- C8 (amended: only the question columns actually referenced by the
matched key table are replaced by awarded values; unreferenced `Q_` columns
keep the raw answer): for a matched student row, every non-question column
other than `Total_Marks` is preserved verbatim, a `Total_Marks` cell is
present, every student-table question column that some key row scores holds
the award computed for the *last* such key row (in key-file row order, as
later writes overwrite earlier ones), and every `Q_` column referenced by
no key row keeps the student's raw value (source lines 57-95). -/
theorem claim_C8 (cols : List String) (student : Row) (reg : Registry) (tbl : DataFrame)
    (r' : Row) (reg' : Registry) (ws : List (String × String))
    (hf : Registry.find reg (studentId student) = some tbl)
    (h : evalRow cols student reg = some (r', reg', ws)) :
    (∀ c, isQCol c = false → c ≠ "Total_Marks" → Row.get r' c = Row.get student c) ∧
    (∃ t, Row.get r' "Total_Marks" = some t) ∧
    (∀ kr ∈ (astypeQNo tbl).rows, qColOf kr ∈ cols →
      ∃ kr', lastRef (qColOf kr) (astypeQNo tbl).rows = some kr' ∧
        kr' ∈ (astypeQNo tbl).rows ∧ qColOf kr' = qColOf kr ∧
        Row.get r' (qColOf kr) = some (awardFor student kr')) ∧
    (∀ c, isQCol c = true → (∀ kr ∈ (astypeQNo tbl).rows, qColOf kr ≠ c) →
      Row.get r' c = Row.get student c) := by
  obtain ⟨r1, t1, hsf, hr, hrg⟩ := evalRow_matched_parts hf h
  refine ⟨?_, ?_, ?_, ?_⟩
  · intro c hcQ hcT
    rw [hr, Row.get_set_ne _ (fun he => hcT he.symm)]
    have hnc : ∀ kr ∈ (astypeQNo tbl).rows, qColOf kr ≠ c := by
      intro kr _ he
      rw [← he] at hcQ
      rw [isQCol_qColOf kr] at hcQ
      simp at hcQ
    exact scoreFold_get_frame hnc hsf
  · exact ⟨t1, by rw [hr, Row.get_set_self]⟩
  · intro kr hmem hin
    obtain ⟨kr', hlr⟩ := lastRef_isSome_of_mem hmem rfl
    obtain ⟨hm', hq'⟩ := lastRef_mem hlr
    refine ⟨kr', hlr, hm', hq', ?_⟩
    rw [hr, Row.get_set_ne _ ?_]
    · exact scoreFold_get_last hsf hin hlr
    · intro he
      have hT := isQCol_qColOf kr
      rw [← he] at hT
      exact absurd hT (by decide)
  · intro c hcQ hnc
    have hcT : c ≠ "Total_Marks" := by
      intro he
      rw [he] at hcQ
      exact absurd hcQ (by decide)
    rw [hr, Row.get_set_ne _ (fun he => hcT he.symm)]
    exact scoreFold_get_frame hnc hsf

/-- Witness for C8 at a concrete input: `Q_1` is scored (award 5), `Q_2` is
unreferenced and keeps `"RAW"`, `Class` and `Paper` pass through,
`Total_Marks` is present. -/
theorem claim_C8_witness :
    (∀ c, isQCol c = false → c ≠ "Total_Marks" →
      Row.get [("Class", Cell.str "1"), ("Paper", .str "1"), ("Q_1", .int 5),
        ("Q_2", .str "RAW"), ("Total_Marks", .int 5)] c =
      Row.get [("Class", .str "1"), ("Paper", .str "1"), ("Q_1", .str "A"),
        ("Q_2", .str "RAW")] c) ∧
    (∃ t, Row.get [("Class", Cell.str "1"), ("Paper", .str "1"), ("Q_1", .int 5),
        ("Q_2", .str "RAW"), ("Total_Marks", .int 5)] "Total_Marks" = some t) ∧
    (∀ kr ∈ (astypeQNo ⟨["QUESTION_NO", "ANSWER_KEY", "MARKS"],
        [[("QUESTION_NO", .str "1"), ("ANSWER_KEY", .str "A"), ("MARKS", .int 5)]]⟩).rows,
      qColOf kr ∈ ["Class", "Paper", "Q_1", "Q_2"] →
      ∃ kr', lastRef (qColOf kr) (astypeQNo ⟨["QUESTION_NO", "ANSWER_KEY", "MARKS"],
          [[("QUESTION_NO", .str "1"), ("ANSWER_KEY", .str "A"), ("MARKS", .int 5)]]⟩).rows =
          some kr' ∧
        kr' ∈ (astypeQNo ⟨["QUESTION_NO", "ANSWER_KEY", "MARKS"],
          [[("QUESTION_NO", .str "1"), ("ANSWER_KEY", .str "A"), ("MARKS", .int 5)]]⟩).rows ∧
        qColOf kr' = qColOf kr ∧
        Row.get [("Class", Cell.str "1"), ("Paper", .str "1"), ("Q_1", .int 5),
          ("Q_2", .str "RAW"), ("Total_Marks", .int 5)] (qColOf kr) =
          some (awardFor [("Class", .str "1"), ("Paper", .str "1"), ("Q_1", .str "A"),
            ("Q_2", .str "RAW")] kr')) ∧
    (∀ c, isQCol c = true →
      (∀ kr ∈ (astypeQNo ⟨["QUESTION_NO", "ANSWER_KEY", "MARKS"],
        [[("QUESTION_NO", .str "1"), ("ANSWER_KEY", .str "A"), ("MARKS", .int 5)]]⟩).rows,
        qColOf kr ≠ c) →
      Row.get [("Class", Cell.str "1"), ("Paper", .str "1"), ("Q_1", .int 5),
        ("Q_2", .str "RAW"), ("Total_Marks", .int 5)] c =
      Row.get [("Class", .str "1"), ("Paper", .str "1"), ("Q_1", .str "A"),
        ("Q_2", .str "RAW")] c) :=
  claim_C8 ["Class", "Paper", "Q_1", "Q_2"]
    [("Class", .str "1"), ("Paper", .str "1"), ("Q_1", .str "A"), ("Q_2", .str "RAW")]
    [(("1", "1"), ⟨["QUESTION_NO", "ANSWER_KEY", "MARKS"],
      [[("QUESTION_NO", .str "1"), ("ANSWER_KEY", .str "A"), ("MARKS", .int 5)]]⟩)]
    ⟨["QUESTION_NO", "ANSWER_KEY", "MARKS"],
      [[("QUESTION_NO", .str "1"), ("ANSWER_KEY", .str "A"), ("MARKS", .int 5)]]⟩
    [("Class", .str "1"), ("Paper", .str "1"), ("Q_1", .int 5), ("Q_2", .str "RAW"),
      ("Total_Marks", .int 5)]
    [(("1", "1"), ⟨["QUESTION_NO", "ANSWER_KEY", "MARKS"],
      [[("QUESTION_NO", .str "1"), ("ANSWER_KEY", .str "A"), ("MARKS", .int 5)]]⟩)]
    [] (by decide) (by decide)

/-- C9 as frozen is refuted: running `evaluate` rewrites the matched key
table inside the registry — its `QUESTION_NO` cell, originally the int 1,
is the string "1" after the call (the in-place `astype(str)` of line 74). -/
theorem claim_C9_counterexample :
    (evaluate ⟨["Class", "Paper"], [[("Class", .str "1"), ("Paper", .str "1")]]⟩
        [(("1", "1"), ⟨["QUESTION_NO", "ANSWER_KEY", "MARKS"],
          [[("QUESTION_NO", .int 1), ("ANSWER_KEY", .str "A"), ("MARKS", .int 5)]]⟩)]).map
        (fun out => Registry.find out.2.1 ("1", "1")) =
      some (some ⟨["QUESTION_NO", "ANSWER_KEY", "MARKS"],
        [[("QUESTION_NO", .str "1"), ("ANSWER_KEY", .str "A"), ("MARKS", .int 5)]]⟩) ∧
    (⟨["QUESTION_NO", "ANSWER_KEY", "MARKS"],
        [[("QUESTION_NO", .str "1"), ("ANSWER_KEY", .str "A"), ("MARKS", .int 5)]]⟩ : DataFrame) ≠
      ⟨["QUESTION_NO", "ANSWER_KEY", "MARKS"],
        [[("QUESTION_NO", .int 1), ("ANSWER_KEY", .str "A"), ("MARKS", .int 5)]]⟩ :=
  ⟨by decide, by decide⟩

/-- C9 (amended: read-only except for the `QUESTION_NO` string coercion):
after `evaluate` returns, every registry key whose identity is the trimmed
(Class, Paper) of some student row maps to exactly its original table with
the `QUESTION_NO` column coerced in place to strings (the `astype(str)` of
line 74), and every other key maps to exactly its original, unchanged
table — so key tables of identities no student matches are untouched, and a
matched table changes only by that coercion. -/
theorem claim_C9 (students : DataFrame) (reg : Registry)
    (out : DataFrame × Registry × List (String × String))
    (h : evaluate students reg = some out) :
    ∀ k, Registry.find out.2.1 k =
      if ∃ s ∈ students.rows, studentId s = k
      then (Registry.find reg k).map astypeQNo
      else Registry.find reg k := by
  unfold evaluate at h
  cases hrows : evalRows students.cols students.rows reg with
  | none => rw [hrows] at h; simp at h
  | some out0 =>
    rw [hrows] at h
    obtain ⟨rs, reg2, ws⟩ := out0
    simp only [Option.some.injEq] at h
    have hh : out.2.1 = reg2 := by rw [← h]
    rw [hh]
    intro k
    exact evalRows_registry hrows k

/-- Witness for C9 at the counterexample input and the key ("1", "1"): the
one student row matches that key, so the registry entry after the run is
exactly the `QUESTION_NO`-coerced table. -/
theorem claim_C9_witness :
    Registry.find [(("1", "1"), (⟨["QUESTION_NO", "ANSWER_KEY", "MARKS"],
        [[("QUESTION_NO", .str "1"), ("ANSWER_KEY", .str "A"), ("MARKS", .int 5)]]⟩ :
          DataFrame))] ("1", "1") =
      if ∃ s ∈ (⟨["Class", "Paper"], [[("Class", Cell.str "1"), ("Paper", Cell.str "1")]]⟩ :
          DataFrame).rows, studentId s = ("1", "1")
      then (Registry.find [(("1", "1"), ⟨["QUESTION_NO", "ANSWER_KEY", "MARKS"],
        [[("QUESTION_NO", .int 1), ("ANSWER_KEY", .str "A"), ("MARKS", .int 5)]]⟩)]
        ("1", "1")).map astypeQNo
      else Registry.find [(("1", "1"), ⟨["QUESTION_NO", "ANSWER_KEY", "MARKS"],
        [[("QUESTION_NO", .int 1), ("ANSWER_KEY", .str "A"), ("MARKS", .int 5)]]⟩)] ("1", "1") :=
  claim_C9 ⟨["Class", "Paper"], [[("Class", .str "1"), ("Paper", .str "1")]]⟩
    [(("1", "1"), ⟨["QUESTION_NO", "ANSWER_KEY", "MARKS"],
      [[("QUESTION_NO", .int 1), ("ANSWER_KEY", .str "A"), ("MARKS", .int 5)]]⟩)]
    (⟨["Class", "Paper", "Total_Marks"],
      [[("Class", .str "1"), ("Paper", .str "1"), ("Total_Marks", .int 0)]]⟩,
     [(("1", "1"), ⟨["QUESTION_NO", "ANSWER_KEY", "MARKS"],
       [[("QUESTION_NO", .str "1"), ("ANSWER_KEY", .str "A"), ("MARKS", .int 5)]]⟩)],
     [("Q_1", "1")])
    (by decide) ("1", "1")

/-- C10: for a matched student row, a question column `q` present in the
student table that no key row of the matched table references is neither
scored nor overwritten: its value passes through evaluation verbatim (any
value `v` stored there reappears unchanged in the result row while result,
registry and warnings are otherwise identical — in particular `Total_Marks`
does not depend on it, i.e. it contributes 0), and the result row keeps the
student's original raw value at `q` (source lines 63, 77-92). -/
theorem claim_C10 (cols : List String) (student : Row) (reg : Registry) (tbl : DataFrame)
    (q : String) (v w0 : Cell)
    (hq : isQCol q = true)
    (hcols : q ∈ cols)
    (hpres : Row.get student q = some w0)
    (hf : Registry.find reg (studentId student) = some tbl)
    (hno : ∀ kr ∈ (astypeQNo tbl).rows, qColOf kr ≠ q) :
    evalRow cols (Row.set student q v) reg =
      (evalRow cols student reg).map (fun out => (Row.set out.1 q v, out.2.1, out.2.2)) ∧
    (∀ r' reg' ws, evalRow cols student reg = some (r', reg', ws) →
      Row.get r' q = Row.get student q) := by
  have hqC : q ≠ "Class" := by
    intro he; rw [he] at hq; exact absurd hq (by decide)
  have hqP : q ≠ "Paper" := by
    intro he; rw [he] at hq; exact absurd hq (by decide)
  have hqT : q ≠ "Total_Marks" := by
    intro he; rw [he] at hq; exact absurd hq (by decide)
  have hps : (Row.get student q).isSome = true := by rw [hpres]; rfl
  have hmain : ∀ v' : Cell, evalRow cols (Row.set student q v') reg =
      (evalRow cols student reg).map (fun out => (Row.set out.1 q v', out.2.1, out.2.2)) := by
    intro v'
    have hid : studentId (Row.set student q v') = studentId student := by
      unfold studentId
      rw [Row.get_set_ne student hqC v', Row.get_set_ne student hqP v']
    unfold evalRow
    rw [hid, hf]
    dsimp only
    by_cases hqn : "QUESTION_NO" ∈ tbl.cols
    · simp only [hqn, if_true]
      rw [scoreFold_set_comm hno hps]
      cases hsf : scoreFold cols student (astypeQNo tbl).rows (student, Cell.int 0, []) with
      | none => rfl
      | some st =>
        obtain ⟨r1, t1, w1⟩ := st
        have hp1 : (Row.get r1 q).isSome = true := scoreFold_get_isSome hps hsf
        show some (((r1.set q v').set "Total_Marks" t1),
            Registry.set reg (studentId student) (astypeQNo tbl), w1) =
          some (((r1.set "Total_Marks" t1).set q v'),
            Registry.set reg (studentId student) (astypeQNo tbl), w1)
        rw [Row.set_set_comm (fun he => hqT he.symm) hp1]
    · rw [if_neg hqn, if_neg hqn]
      rfl
  refine ⟨hmain v, ?_⟩
  intro r' reg' ws heq
  have h0 := hmain w0
  rw [Row.set_get_self hpres] at h0
  rw [heq] at h0
  simp only [Option.map_some', Option.some.injEq, Prod.mk.injEq] at h0
  rw [hpres, h0.1, Row.get_set_self]

/-- Witness for C10 at a concrete input: `Q_2` is present but unreferenced
by the key table (which only scores `Q_1`). -/
theorem claim_C10_witness :
    evalRow ["Class", "Paper", "Q_1", "Q_2"]
      (Row.set [("Class", .str "1"), ("Paper", .str "1"), ("Q_1", .str "A"), ("Q_2", .str "X")]
        "Q_2" (.str "NEW"))
      [(("1", "1"), ⟨["QUESTION_NO", "ANSWER_KEY", "MARKS"],
        [[("QUESTION_NO", .str "1"), ("ANSWER_KEY", .str "A"), ("MARKS", .int 5)]]⟩)] =
      (evalRow ["Class", "Paper", "Q_1", "Q_2"]
        [("Class", .str "1"), ("Paper", .str "1"), ("Q_1", .str "A"), ("Q_2", .str "X")]
        [(("1", "1"), ⟨["QUESTION_NO", "ANSWER_KEY", "MARKS"],
          [[("QUESTION_NO", .str "1"), ("ANSWER_KEY", .str "A"), ("MARKS", .int 5)]]⟩)]).map
        (fun out => (Row.set out.1 "Q_2" (.str "NEW"), out.2.1, out.2.2)) ∧
    (∀ r' reg' ws, evalRow ["Class", "Paper", "Q_1", "Q_2"]
        [("Class", .str "1"), ("Paper", .str "1"), ("Q_1", .str "A"), ("Q_2", .str "X")]
        [(("1", "1"), ⟨["QUESTION_NO", "ANSWER_KEY", "MARKS"],
          [[("QUESTION_NO", .str "1"), ("ANSWER_KEY", .str "A"), ("MARKS", .int 5)]]⟩)] =
          some (r', reg', ws) →
      Row.get r' "Q_2" =
        Row.get [("Class", .str "1"), ("Paper", .str "1"), ("Q_1", .str "A"),
          ("Q_2", .str "X")] "Q_2") :=
  claim_C10 ["Class", "Paper", "Q_1", "Q_2"]
    [("Class", .str "1"), ("Paper", .str "1"), ("Q_1", .str "A"), ("Q_2", .str "X")]
    [(("1", "1"), ⟨["QUESTION_NO", "ANSWER_KEY", "MARKS"],
      [[("QUESTION_NO", .str "1"), ("ANSWER_KEY", .str "A"), ("MARKS", .int 5)]]⟩)]
    ⟨["QUESTION_NO", "ANSWER_KEY", "MARKS"],
      [[("QUESTION_NO", .str "1"), ("ANSWER_KEY", .str "A"), ("MARKS", .int 5)]]⟩
    "Q_2" (.str "NEW") (.str "X")
    (by decide) (by decide) (by decide) (by decide) (by decide)
